import Mathlib

/-!
# Cell rendering of the `xls` package (`col.go`)

A shallow embedding of the packed numeric codec (`RK`), the format resolver
(`XfRk.String`) and the cell variants of `col.go` (`Col`, `MulrkCol`,
`MulBlankCol`, `NumberCol`, `FormulaStringCol`, `FormulaCol`, `RkCol`,
`LabelsstCol`, `labelCol`, `BlankCol`), followed by the properties proved about
them.

Conventions of the embedding

* unsigned machine integers (`uint16`, `uint32`, `uint64`) are natural numbers,
  signed ones (`int32`, `int64`) are integers; conversions that wrap do so with
  an explicit `% 2 ^ w`;
* a `float64` is represented by its IEEE-754 bit pattern, so that
  `math.Float64frombits` is the identity; the floating-point operations the
  code calls (division, conversion from an integer, formatting) are fields of
  `GoLib`, the record of the library routines `col.go` imports;
* a Go `string` is a Lean `String`; a Go slice is a `List`;
* a method that can panic returns `Except GoPanic`.
-/

namespace Xls

/-! ## Library routines used by `col.go` -/

/-- A `float64`, represented by its 64-bit IEEE-754 pattern. -/
abbrev Float64 := Nat

/-- The constant `100` of `floatNum / 100`, as a `float64` (`0x4059000000000000`). -/
def float100 : Float64 := 0x4059000000000000

/-- The routines `col.go` calls and does not define: float arithmetic of the Go
runtime, `strconv`, `strings`, `time`, `yymmdd`, and `timeFromExcelTime` of the
same package (defined in another file). -/
structure GoLib where
  /-- `time.Time` -/
  Time : Type
  /-- the conversion `float64(i)` of a signed integer -/
  float64OfInt : Int → Float64
  /-- the `float64` division `a / b` -/
  fdiv : Float64 → Float64 → Float64
  /-- `strconv.FormatFloat(f, fmt, prec, bitSize)` -/
  FormatFloat : Float64 → Char → Int → Nat → String
  /-- `strings.ToLower` -/
  ToLower : String → String
  /-- `timeFromExcelTime(f, date1904)` -/
  timeFromExcelTime : Float64 → Bool → Time
  /-- `yymmdd.Format(t, pattern)` -/
  yymmddFormat : Time → String → String
  /-- `t.Format(time.RFC3339)` -/
  formatRFC3339 : Time → String

/-- `strconv.FormatInt(i, 10)`: the decimal digits of `i`, with a leading `-`
when `i` is negative. -/
def FormatInt10 (i : Int) : String :=
  match i with
  | Int.ofNat n => String.mk (Nat.toDigits 10 n)
  | Int.negSucc n => String.mk ('-' :: Nat.toDigits 10 (n + 1))

/-- The scan of `strings.Contains`: does `sub` occur in `s` at some position. -/
def containsAt (sub : List Char) : List Char → Bool
  | [] => sub.isEmpty
  | c :: cs => sub.isPrefixOf (c :: cs) || containsAt sub cs

/-- `strings.Contains(s, substr)`. Go compares bytes; on well-formed UTF-8 text
that is the comparison of characters made here. -/
def Contains (s substr : String) : Bool :=
  containsAt substr.data s.data

/-! ## Packed numeric codec -/

/-- `type RK uint32` -/
abbrev RK := Nat

/-- The conversion `int32(rk)` of a `uint32`: the same 32 bits read in two's
complement. -/
def toInt32 (rk : Nat) : Int :=
  if rk % 2 ^ 32 < 2 ^ 31 then ((rk % 2 ^ 32 : Nat) : Int)
  else ((rk % 2 ^ 32 : Nat) : Int) - 2 ^ 32

/-- The conversion `uint64(val)` of a signed integer: wraps modulo `2 ^ 64`. -/
def toUint64 (val : Int) : Nat :=
  (val % 2 ^ 64).toNat

/-- `func (rk RK) number() (intNum int64, floatNum float64, isFloat bool)` -/
def RK.number (lib : GoLib) (rk : RK) : Int × Float64 × Bool :=
  let multiplied : Nat := rk &&& 1
  let isInt : Nat := rk &&& 2
  let val : Int := toInt32 rk >>> (2 : Nat)
  if isInt = 0 then
    let floatNum : Float64 := (toUint64 val <<< 34) % 2 ^ 64
    if multiplied ≠ 0 then
      (0, lib.fdiv floatNum float100, true)
    else
      (0, floatNum, true)
  else if multiplied ≠ 0 then
    (0, lib.fdiv (lib.float64OfInt val) float100, true)
  else
    (val, 0, false)

/-- `func (rk RK) String() string` -/
def RK.String (lib : GoLib) (rk : RK) : String :=
  let (i, f, isFloat) := RK.number lib rk
  if isFloat then lib.FormatFloat f 'f' (-1) 64
  else FormatInt10 i

/-- The error values of the package. -/
inductive GoError where
  | ErrIsInt
  deriving DecidableEq, Repr

/-- `func (rk RK) Float() (float64, error)`; `none` is the `nil` error. -/
def RK.Float (lib : GoLib) (rk : RK) : Float64 × Option GoError :=
  let (_, f, isFloat) := RK.number lib rk
  if !isFloat then (0, some GoError.ErrIsInt)
  else (f, none)

/-! ## Workbook context -/

/-- Modelled from the spec: a style record (`st_xf_data`), of which `col.go`
uses only `formatNo()`, the numeric format code (a `uint16`). -/
structure StXfData where
  formatNo : Nat

/-- Modelled from the spec: an entry of the custom-format table (`Format`), of
which `col.go` uses only `str`, the format pattern string. -/
structure Format where
  str : String

/-- Modelled from the spec: the workbook context `WorkBook`, read-only here.
`Xfs` is the ordered style table, `Formats` the map from format code to custom
pattern (`none` where the Go map yields `nil`), `dateMode` the epoch mode
(`1` selects the 1904 epoch) and `sst` the shared-string table. -/
structure WorkBook where
  Xfs : List StXfData
  Formats : Nat → Option Format
  dateMode : Nat
  sst : List String

/-! ## Format resolver -/

/-- `type XfRk struct { Index uint16; Rk RK }` -/
structure XfRk where
  Index : Nat
  Rk : RK

/-- `func (xf *XfRk) String(wb *WorkBook) string` -/
def XfRk.String (lib : GoLib) (xf : XfRk) (wb : WorkBook) : String :=
  let idx := xf.Index
  if h : wb.Xfs.length > idx then
    let fNo := (wb.Xfs.get ⟨idx, h⟩).formatNo
    if fNo ≥ 164 then
      match wb.Formats fNo with
      | some formatter =>
        let formatterLower := lib.ToLower formatter.str
        if formatterLower == "general" ||
            Contains formatter.str "#" ||
            Contains formatter.str ".00" ||
            Contains formatterLower "m/y" ||
            Contains formatterLower "d/y" ||
            Contains formatterLower "m.y" ||
            Contains formatterLower "d.y" ||
            Contains formatterLower "h:" ||
            Contains formatterLower "д.г" then
          RK.String lib xf.Rk
        else
          let (i, f, isFloat) := RK.number lib xf.Rk
          let f := if !isFloat then lib.float64OfInt i else f
          let t := lib.timeFromExcelTime f (wb.dateMode == 1)
          lib.yymmddFormat t formatter.str
      | none => RK.String lib xf.Rk
    else if (14 ≤ fNo && fNo ≤ 17) || fNo == 22 || (27 ≤ fNo && fNo ≤ 36) ||
        (50 ≤ fNo && fNo ≤ 58) then
      let (i, f, isFloat) := RK.number lib xf.Rk
      let f := if !isFloat then lib.float64OfInt i else f
      let t := lib.timeFromExcelTime f (wb.dateMode == 1)
      lib.formatRFC3339 t
    else
      RK.String lib xf.Rk
  else
    RK.String lib xf.Rk

/-! ## Cell variants -/

/-- `type Col struct { RowB uint16; FirstColB uint16 }` -/
structure Col where
  RowB : Nat
  FirstColB : Nat

/-- `func (c *Col) Row() uint16` -/
def Col.Row (c : Col) : Nat := c.RowB

/-- `func (c *Col) FirstCol() uint16` -/
def Col.FirstCol (c : Col) : Nat := c.FirstColB

/-- `func (c *Col) LastCol() uint16` -/
def Col.LastCol (c : Col) : Nat := c.FirstColB

/-- `func (c *Col) String(wb *WorkBook) []string` -/
def Col.String (_c : Col) (_wb : WorkBook) : List String := ["default"]

/-- `type MulrkCol struct { Col; Xfrks []XfRk; LastColB uint16 }` -/
structure MulrkCol extends Col where
  Xfrks : List XfRk
  LastColB : Nat

/-- `FirstCol`, promoted from the embedded `Col`. -/
def MulrkCol.FirstCol (c : MulrkCol) : Nat := c.toCol.FirstCol

/-- `func (c *MulrkCol) LastCol() uint16` -/
def MulrkCol.LastCol (c : MulrkCol) : Nat := c.LastColB

/-- The loop `for i := 0; i < len(c.Xfrks); i++ { res[i] = c.Xfrks[i].String(wb) }`
of `MulrkCol.String`, from index `i` on; the first argument is the part
`c.Xfrks[i:]` of the slice still to visit. -/
def MulrkCol.fill (lib : GoLib) (wb : WorkBook) :
    List XfRk → Nat → List String → List String
  | [], _, res => res
  | xfrk :: rest, i, res =>
    MulrkCol.fill lib wb rest (i + 1) (res.set i (xfrk.String lib wb))

/-- `func (c *MulrkCol) String(wb *WorkBook) []string`; `make([]string, n)` is
the slice of `n` empty strings. -/
def MulrkCol.String (lib : GoLib) (c : MulrkCol) (wb : WorkBook) : List String :=
  MulrkCol.fill lib wb c.Xfrks 0 (List.replicate c.Xfrks.length "")

/-- `type MulBlankCol struct { Col; Xfs []uint16; LastColB uint16 }` -/
structure MulBlankCol extends Col where
  Xfs : List Nat
  LastColB : Nat

/-- `FirstCol`, promoted from the embedded `Col`. -/
def MulBlankCol.FirstCol (c : MulBlankCol) : Nat := c.toCol.FirstCol

/-- `func (c *MulBlankCol) LastCol() uint16` -/
def MulBlankCol.LastCol (c : MulBlankCol) : Nat := c.LastColB

/-- `func (c *MulBlankCol) String(wb *WorkBook) []string` -/
def MulBlankCol.String (c : MulBlankCol) (_wb : WorkBook) : List String :=
  List.replicate c.Xfs.length ""

/-- The run-time panics `col.go` can raise: an index past the end of a slice and
the dereference of a `nil` pointer. -/
inductive GoPanic where
  | indexOutOfRange
  | nilDereference
  deriving DecidableEq, Repr

/-- `type NumberCol struct { Col; Index uint16; Float float64 }` -/
structure NumberCol extends Col where
  Index : Nat
  Float : Float64

/-- `FirstCol`, promoted from the embedded `Col`. -/
def NumberCol.FirstCol (c : NumberCol) : Nat := c.toCol.FirstCol

/-- `LastCol`, promoted from the embedded `Col`. -/
def NumberCol.LastCol (c : NumberCol) : Nat := c.toCol.LastCol

/-- `func (c *NumberCol) String(wb *WorkBook) []string`. The lookup
`wb.Xfs[c.Index]` panics past the end of the style table, and
`wb.Formats[fNo].str` panics when the map holds no entry at `fNo`. -/
def NumberCol.String (lib : GoLib) (c : NumberCol) (wb : WorkBook) :
    Except GoPanic (List String) :=
  match wb.Xfs[c.Index]? with
  | none => Except.error GoPanic.indexOutOfRange
  | some xf =>
    let fNo := xf.formatNo
    let isNumber : Bool :=
      match wb.Formats fNo with
      | some formatter =>
        let formatterLower := lib.ToLower formatter.str
        Contains formatterLower "#" || Contains formatterLower ".00"
      | none => false
    if isNumber then
      Except.ok [lib.FormatFloat c.Float 'f' (-1) 64]
    else if fNo = 1 then
      Except.ok [lib.FormatFloat c.Float 'f' 0 64]
    else if fNo = 2 then
      Except.ok [lib.FormatFloat c.Float 'f' 2 64]
    else if fNo = 3 then
      Except.ok [lib.FormatFloat c.Float 'f' 0 64]
    else if fNo = 4 then
      Except.ok [lib.FormatFloat c.Float 'f' 2 64]
    else if fNo ≠ 0 then
      let t := lib.timeFromExcelTime c.Float (wb.dateMode == 1)
      match wb.Formats fNo with
      | some formatter => Except.ok [lib.yymmddFormat t formatter.str]
      | none => Except.error GoPanic.nilDereference
    else
      Except.ok [lib.FormatFloat c.Float 'f' (-1) 64]

/-- `type FormulaStringCol struct { Col; RenderedValue string }` -/
structure FormulaStringCol extends Col where
  RenderedValue : String

/-- `FirstCol`, promoted from the embedded `Col`. -/
def FormulaStringCol.FirstCol (c : FormulaStringCol) : Nat := c.toCol.FirstCol

/-- `LastCol`, promoted from the embedded `Col`. -/
def FormulaStringCol.LastCol (c : FormulaStringCol) : Nat := c.toCol.LastCol

/-- `func (c *FormulaStringCol) String(wb *WorkBook) []string` -/
def FormulaStringCol.String (c : FormulaStringCol) (_wb : WorkBook) : List String :=
  [c.RenderedValue]

/-- The field `Header struct { Col; IndexXf uint16; Result [8]byte; Flags uint16;
_ uint32 }` of `FormulaCol`; bytes are natural numbers. -/
structure FormulaColHeader extends Col where
  IndexXf : Nat
  Result : List Nat
  Flags : Nat

/-- `type FormulaCol struct { Header struct { ... }; Bts []byte }` -/
structure FormulaCol where
  Header : FormulaColHeader
  Bts : List Nat

/-- `func (c *FormulaCol) String(wb *WorkBook) []string` -/
def FormulaCol.String (_c : FormulaCol) (_wb : WorkBook) : List String :=
  ["FormulaCol"]

/-- `type RkCol struct { Col; Xfrk XfRk }` -/
structure RkCol extends Col where
  Xfrk : XfRk

/-- `FirstCol`, promoted from the embedded `Col`. -/
def RkCol.FirstCol (c : RkCol) : Nat := c.toCol.FirstCol

/-- `LastCol`, promoted from the embedded `Col`. -/
def RkCol.LastCol (c : RkCol) : Nat := c.toCol.LastCol

/-- `func (c *RkCol) String(wb *WorkBook) []string` -/
def RkCol.String (lib : GoLib) (c : RkCol) (wb : WorkBook) : List String :=
  [c.Xfrk.String lib wb]

/-- `type LabelsstCol struct { Col; Xf uint16; Sst uint32 }` -/
structure LabelsstCol extends Col where
  Xf : Nat
  Sst : Nat

/-- `FirstCol`, promoted from the embedded `Col`. -/
def LabelsstCol.FirstCol (c : LabelsstCol) : Nat := c.toCol.FirstCol

/-- `LastCol`, promoted from the embedded `Col`. -/
def LabelsstCol.LastCol (c : LabelsstCol) : Nat := c.toCol.LastCol

/-- `func (c *LabelsstCol) String(wb *WorkBook) []string`. The lookup
`wb.sst[int(c.Sst)]` panics past the end of the shared-string table. -/
def LabelsstCol.String (c : LabelsstCol) (wb : WorkBook) : Except GoPanic (List String) :=
  match wb.sst[c.Sst]? with
  | some s => Except.ok [s]
  | none => Except.error GoPanic.indexOutOfRange

/-- `type BlankCol struct { Col; Xf uint16 }` -/
structure BlankCol extends Col where
  Xf : Nat

/-- `FirstCol`, promoted from the embedded `Col`. -/
def BlankCol.FirstCol (c : BlankCol) : Nat := c.toCol.FirstCol

/-- `LastCol`, promoted from the embedded `Col`. -/
def BlankCol.LastCol (c : BlankCol) : Nat := c.toCol.LastCol

/-- `func (c *BlankCol) String(wb *WorkBook) []string` -/
def BlankCol.String (_c : BlankCol) (_wb : WorkBook) : List String := [""]

/-- `type labelCol struct { BlankCol; Str string }` -/
structure labelCol extends BlankCol where
  Str : String

/-- `FirstCol`, promoted from the embedded `BlankCol`. -/
def labelCol.FirstCol (c : labelCol) : Nat := c.toBlankCol.FirstCol

/-- `LastCol`, promoted from the embedded `BlankCol`. -/
def labelCol.LastCol (c : labelCol) : Nat := c.toBlankCol.LastCol

/-- `func (c *labelCol) String(wb *WorkBook) []string` -/
def labelCol.String (c : labelCol) (_wb : WorkBook) : List String := [c.Str]

/-! ## Notions of the specification -/

/-- The 30-bit payload of a 32-bit packed word (bits 2 to 31), sign-extended
from bit 31. -/
def payload (w : Nat) : Int :=
  if w.testBit 31 then ((w / 4 : Nat) : Int) - 2 ^ 30
  else ((w / 4 : Nat) : Int)

/-- The packed word of the integer `N`: `N` shifted left by 2 and truncated to
32 bits, with the is-integer flag (bit 1) set and the multiplied flag (bit 0)
clear. -/
def encodeInt (N : Int) : Nat :=
  ((N * 4) % 2 ^ 32).toNat ||| 2

/-- A packed word with its multiplied flag (bit 0) cleared. -/
def clearMultiplied (w : Nat) : Nat :=
  w &&& 0xFFFFFFFE

/-- The decoded value of a packed word as a day count: the float that
`RK.number` returns, an integer result being converted to `float64`. -/
def serialOf (lib : GoLib) (rk : RK) : Float64 :=
  if (RK.number lib rk).2.2 then (RK.number lib rk).2.1
  else lib.float64OfInt (RK.number lib rk).1

/-- The custom patterns rendered as plain numbers: the lower-cased pattern is
`"general"`, or the pattern contains `"#"` or `".00"`, or the lower-cased
pattern contains one of the listed date markers. -/
def numericPattern (lib : GoLib) (str : String) : Prop :=
  lib.ToLower str = "general" ∨
    (Contains str "#" = true ∨ Contains str ".00" = true) ∨
    (∃ m ∈ ["m/y", "d/y", "m.y", "d.y", "h:", "д.г"],
      Contains (lib.ToLower str) m = true)

/-- The built-in date format codes `14–17, 22, 27–36, 50–58`. -/
def builtinDateCodes : List Nat :=
  [14, 15, 16, 17, 22, 27, 28, 29, 30, 31, 32, 33, 34, 35, 36,
    50, 51, 52, 53, 54, 55, 56, 57, 58]

/-- A packed word with its two flag bits (bits 0 and 1) cleared. -/
def clearFlags (w : Nat) : Nat :=
  w &&& 0xFFFFFFFC

/-- The decimal digits of `n`, padded with leading zeros to `width` characters. -/
def padDigits (width n : Nat) : List Char :=
  List.replicate (width - (Nat.toDigits 10 n).length) '0' ++ Nat.toDigits 10 n

/-- Modelled from the spec: the fixed rendering with `prec` decimal places
(`strconv.FormatFloat(f, 'f', prec, 64)` for `prec ≥ 0`, which `col.go` imports):
the exact value of the double with bit pattern `f`, rounded to `prec` decimals
with ties to even, written as sign, integer digits and, when `prec > 0`, a
point and exactly `prec` digits. -/
def fixedNotation (f : Float64) (prec : Nat) : String :=
  let sign := f / 2 ^ 63 % 2
  let e := f / 2 ^ 52 % 2 ^ 11
  let m := f % 2 ^ 52
  if e = 2047 then
    if m ≠ 0 then "NaN" else if sign = 1 then "-Inf" else "+Inf"
  else
    let mant := if e = 0 then m else m + 2 ^ 52
    let ex := if e = 0 then 1 else e
    let num := mant * 10 ^ prec * 2 ^ (ex - 1075)
    let den := 2 ^ (1075 - ex)
    let q := num / den
    let r := num % den
    let q := if den < 2 * r ∨ (2 * r = den ∧ q % 2 = 1) then q + 1 else q
    let body := Nat.toDigits 10 (q / 10 ^ prec) ++
      (if prec = 0 then [] else '.' :: padDigits prec (q % 10 ^ prec))
    String.mk (if sign = 1 then '-' :: body else body)

/-- The double nearest to `3.14159` (`0x400921F9F01B866E`). -/
def float3_14159 : Float64 := 0x400921F9F01B866E

/-- Reading a run of decimal digits, most significant first, onto `acc`; `none`
at a character that is not a digit. -/
def readDigits (acc : Nat) : List Char → Option Nat
  | [] => some acc
  | c :: cs => if c.isDigit then readDigits (acc * 10 + (c.toNat - 48)) cs else none

/-- Reading a decimal integer: an optional leading `-` followed by one or more
digits and nothing else. -/
def parseDecimal (s : String) : Option Int :=
  match s.data with
  | [] => none
  | c :: cs =>
    if c = '-' then
      if cs.isEmpty then none else (readDigits 0 cs).map (fun n => -(n : Int))
    else (readDigits 0 (c :: cs)).map (fun n => (n : Int))

/-! ## A library instance for concrete inputs

The theorems below hold for every `GoLib`. Where one is applied to a concrete
input, the instance `trivLib` stands for the library: integer decoding and
integer rendering do not depend on it. -/

/-- A library instance whose float routines return the bit pattern `0`, whose
`ToLower` lowers ASCII letters and whose time is the serial itself. -/
def trivLib : GoLib where
  Time := Float64
  float64OfInt := fun _ => 0
  fdiv := fun _ _ => 0
  FormatFloat := fun _ _ _ _ => "float"
  ToLower := fun s => s.map Char.toLower
  timeFromExcelTime := fun f _ => f
  yymmddFormat := fun _ str => str
  formatRFC3339 := fun _ => "rfc3339"

/-- The instance `trivLib` with `FormatFloat` rendering format `'f'` with a
precision `prec ≥ 0` in fixed notation. -/
def fixedLib : GoLib :=
  { trivLib with
    FormatFloat := fun f fmt prec _ =>
      if fmt = 'f' ∧ 0 ≤ prec then fixedNotation f prec.toNat else "float" }

/-- A workbook with a single style, of format code `fNo`, whose custom-format
table holds `pattern` at `fNo` and nothing elsewhere (1900 epoch, no shared
strings). -/
def oneStyleBook (fNo : Nat) (pattern : Option String) : WorkBook where
  Xfs := [{ formatNo := fNo }]
  Formats := fun n => if n = fNo then pattern.map Format.mk else none
  dateMode := 0
  sst := []

/-! ## Bit flags and the signed payload -/

theorem and_one_eq_zero_iff (w : Nat) : w &&& 1 = 0 ↔ w.testBit 0 = false := by
  rw [Nat.and_one_is_mod, Nat.testBit_zero]
  simp

theorem and_two_eq_zero_iff (w : Nat) : w &&& 2 = 0 ↔ w.testBit 1 = false := by
  have h := Nat.and_two_pow w 1
  simp only [pow_one] at h
  rw [h]
  cases w.testBit 1 <;> simp

theorem testBit31_iff (w : Nat) (hw : w < 2 ^ 32) :
    w.testBit 31 = true ↔ 2 ^ 31 ≤ w := by
  rw [Nat.testBit_to_div_mod]
  simp only [decide_eq_true_eq]
  have e1 : (2 : Nat) ^ 32 = 4294967296 := by norm_num
  have e2 : (2 : Nat) ^ 31 = 2147483648 := by norm_num
  rw [e1] at hw
  rw [e2]
  omega

theorem toInt32_shiftRight (w : Nat) (hw : w < 2 ^ 32) :
    toInt32 w >>> (2 : Nat) = payload w := by
  rw [Int.shiftRight_eq_div_pow]
  unfold toInt32 payload
  have hb := testBit31_iff w hw
  have e1 : (2 : Nat) ^ 32 = 4294967296 := by norm_num
  have e2 : (2 : Nat) ^ 31 = 2147483648 := by norm_num
  have e4 : (2 : Int) ^ 32 = 4294967296 := by norm_num
  have e5 : (2 : Int) ^ 30 = 1073741824 := by norm_num
  have e6 : ((2 ^ 2 : Nat) : Int) = 4 := by norm_num
  rw [e1] at hw
  rw [e2] at hb
  rw [e1, e2, e4, e5, e6, Nat.mod_eq_of_lt hw]
  by_cases h31 : w.testBit 31 = true
  · have hge := hb.mp h31
    rw [if_neg (by omega), if_pos h31]
    omega
  · have hlt : w < 2147483648 := by
      by_contra hc
      exact h31 (hb.mpr (by omega))
    rw [if_pos hlt, if_neg h31]
    omega

/-- The integer branch of `RK.number`. -/
theorem number_of_int_flags (lib : GoLib) (w : Nat) (hw : w < 2 ^ 32)
    (hInt : w.testBit 1 = true) (hMul : w.testBit 0 = false) :
    RK.number lib w = (payload w, 0, false) := by
  have hI : w &&& 2 ≠ 0 := by
    intro h
    rw [and_two_eq_zero_iff] at h
    rw [h] at hInt
    exact Bool.noConfusion hInt
  have hM : w &&& 1 = 0 := (and_one_eq_zero_iff w).mpr hMul
  unfold RK.number
  simp only [hI, hM, if_false, ne_eq, not_true_eq_false, toInt32_shiftRight w hw]

/-- The float branch of `RK.number` with both flags set. -/
theorem number_of_both_flags (lib : GoLib) (w : Nat) (hw : w < 2 ^ 32)
    (hInt : w.testBit 1 = true) (hMul : w.testBit 0 = true) :
    RK.number lib w = (0, lib.fdiv (lib.float64OfInt (payload w)) float100, true) := by
  have hI : w &&& 2 ≠ 0 := by
    intro h
    rw [and_two_eq_zero_iff] at h
    rw [h] at hInt
    exact Bool.noConfusion hInt
  have hM : w &&& 1 ≠ 0 := by
    intro h
    rw [and_one_eq_zero_iff] at h
    rw [h] at hMul
    exact Bool.noConfusion hMul
  unfold RK.number
  simp only [hI, hM, if_false, ne_eq, not_false_eq_true, if_true, toInt32_shiftRight w hw]

/-- The tag returned by `RK.number`. -/
theorem number_isFloat (lib : GoLib) (w : Nat) :
    (RK.number lib w).2.2 = !(w.testBit 1 && !w.testBit 0) := by
  unfold RK.number
  by_cases hI : w &&& 2 = 0 <;> by_cases hM : w &&& 1 = 0
  · have h1 := (and_two_eq_zero_iff w).mp hI
    simp only [hI, hM, h1, ne_eq, not_true_eq_false, if_true, if_false]
    rfl
  · have h1 := (and_two_eq_zero_iff w).mp hI
    simp only [hI, hM, h1, ne_eq, not_false_eq_true, if_true]
    rfl
  · have h0 := (and_one_eq_zero_iff w).mp hM
    have h1 : w.testBit 1 = true := by
      rw [and_two_eq_zero_iff] at hI
      simpa using hI
    simp only [hI, hM, h0, h1, ne_eq, not_true_eq_false, if_false]
    rfl
  · have h0 : w.testBit 0 = true := by
      rw [and_one_eq_zero_iff] at hM
      simpa using hM
    simp only [hI, hM, h0, ne_eq, not_false_eq_true, if_true, if_false]
    simp

/-! ## Packed numeric codec: theorems -/

/-- C1: for a 32-bit word with the is-integer flag (bit 1) set and the
multiplied flag (bit 0) clear, `RK.number` returns `isFloat = false`,
`floatNum = 0` and `intNum` equal to the 30-bit payload sign-extended from
bit 31, which is the arithmetic right shift by 2 of the word read as a signed
32-bit integer. -/
theorem rk_number_integer (lib : GoLib) (w : RK) (hw : w < 2 ^ 32)
    (hInt : Nat.testBit w 1 = true) (hMul : Nat.testBit w 0 = false) :
    RK.number lib w = (payload w, 0, false) ∧
      payload w = toInt32 w >>> (2 : Nat) :=
  ⟨number_of_int_flags lib w hw hInt hMul, (toInt32_shiftRight w hw).symm⟩

/-- Instance of `rk_number_integer` at the word `0xFFFFFFF6`, the integer `-3`. -/
theorem rk_number_integer_witness :
    ((4294967286 : Nat) < 2 ^ 32 ∧ Nat.testBit 4294967286 1 = true ∧
        Nat.testBit 4294967286 0 = false) ∧
      (RK.number trivLib 4294967286 = (payload 4294967286, 0, false) ∧
        payload 4294967286 = toInt32 4294967286 >>> (2 : Nat)) :=
  ⟨⟨by decide, by decide, by decide⟩,
    rk_number_integer trivLib 4294967286 (by decide) (by decide) (by decide)⟩

/-- The word built by `encodeInt`, as a sum. -/
theorem encodeInt_eq (N : Int) (hlo : -2 ^ 29 ≤ N) (hhi : N ≤ 2 ^ 29 - 1) :
    ((encodeInt N : Nat) : Int) = if 0 ≤ N then N * 4 + 2 else N * 4 + 2 ^ 32 + 2 := by
  unfold encodeInt
  have e1 : (2 : Int) ^ 29 = 536870912 := by norm_num
  have e2 : (2 : Int) ^ 32 = 4294967296 := by norm_num
  rw [e1] at hlo hhi
  rw [e2]
  have hx : (4 : Nat) ∣ (N * 4 % 4294967296).toNat := by omega
  obtain ⟨a, ha⟩ := hx
  have hor : (N * 4 % 4294967296).toNat ||| 2 = (N * 4 % 4294967296).toNat + 2 := by
    rw [ha]
    exact (Nat.mul_add_lt_is_or (show 2 < 2 ^ 2 by decide) a).symm
  rw [hor]
  split <;> omega

/-- C2: round trip. For every integer `N` with `-2^29 ≤ N ≤ 2^29 - 1`, the word
built as `N` shifted left by 2 and truncated to 32 bits, with the is-integer
flag set and the multiplied flag clear, decodes through `RK.number` to the
integer `N` exactly (`isFloat = false`, `intNum = N`). -/
theorem rk_number_encodeInt (lib : GoLib) (N : Int) (hlo : -2 ^ 29 ≤ N)
    (hhi : N ≤ 2 ^ 29 - 1) :
    RK.number lib (encodeInt N) = (N, 0, false) := by
  have he := encodeInt_eq N hlo hhi
  have e1 : (2 : Int) ^ 29 = 536870912 := by norm_num
  have e2 : (2 : Int) ^ 32 = 4294967296 := by norm_num
  have e3 : (2 : Nat) ^ 32 = 4294967296 := by norm_num
  have e4 : (2 : Nat) ^ 31 = 2147483648 := by norm_num
  have e5 : (2 : Int) ^ 30 = 1073741824 := by norm_num
  rw [e1] at hlo hhi
  rw [e2] at he
  have hw : encodeInt N < 2 ^ 32 := by
    rw [e3]
    split at he <;> omega
  have hInt : Nat.testBit (encodeInt N) 1 = true := by
    rw [Nat.testBit_to_div_mod]
    simp only [decide_eq_true_eq, pow_one]
    split at he <;> omega
  have hMul : Nat.testBit (encodeInt N) 0 = false := by
    rw [Nat.testBit_zero]
    simp only [decide_eq_false_iff_not]
    split at he <;> omega
  rw [number_of_int_flags lib _ hw hInt hMul]
  have h31 := testBit31_iff _ hw
  rw [e4] at h31
  have hp : payload (encodeInt N) = N := by
    unfold payload
    rw [e5]
    by_cases hN : 0 ≤ N
    · rw [if_pos hN] at he
      rw [if_neg (fun h => by have := h31.mp h; omega)]
      omega
    · rw [if_neg hN] at he
      rw [if_pos (h31.mpr (by omega))]
      omega
  rw [hp]

/-- Instance of `rk_number_encodeInt` at `N = -2^29`, the least payload. -/
theorem rk_number_encodeInt_witness :
    ((-2 ^ 29 : Int) ≤ -536870912 ∧ (-536870912 : Int) ≤ 2 ^ 29 - 1) ∧
      RK.number trivLib (encodeInt (-536870912)) = (-536870912, 0, false) :=
  ⟨⟨by decide, by decide⟩,
    rk_number_encodeInt trivLib (-536870912) (by decide) (by decide)⟩

/-- C3: for every 32-bit word `RK.number` returns one tag, which is integer
(`isFloat = false`) if and only if bit 1 is set and bit 0 is clear; every word
with the multiplied flag set decodes as a float; and with both flags set the
float is the sign-extended payload converted to `float64` and divided by 100. -/
theorem rk_number_tag (lib : GoLib) (w : RK) (hw : w < 2 ^ 32) :
    ((RK.number lib w).2.2 = false ∨ (RK.number lib w).2.2 = true) ∧
      ((RK.number lib w).2.2 = false ↔
        (Nat.testBit w 1 = true ∧ Nat.testBit w 0 = false)) ∧
      (Nat.testBit w 0 = true → (RK.number lib w).2.2 = true) ∧
      (Nat.testBit w 1 = true → Nat.testBit w 0 = true →
        RK.number lib w =
          (0, lib.fdiv (lib.float64OfInt (payload w)) float100, true)) := by
  have ht := number_isFloat lib w
  refine ⟨?_, ?_, ?_, ?_⟩
  · cases (RK.number lib w).2.2 <;> simp
  · rw [ht]
    cases Nat.testBit w 1 <;> cases Nat.testBit w 0 <;> simp
  · intro h0
    rw [ht, h0]
    simp
  · intro h1 h0
    exact number_of_both_flags lib w hw h1 h0

/-- Instance of `rk_number_tag` at the word `0xFFFFFFF7` (both flags set,
payload `-3`). -/
theorem rk_number_tag_witness :
    (4294967287 : Nat) < 2 ^ 32 ∧
      RK.number trivLib 4294967287 =
        (0, trivLib.fdiv (trivLib.float64OfInt (payload 4294967287)) float100, true) :=
  ⟨by decide, (rk_number_tag trivLib 4294967287 (by decide)).2.2.2 (by decide) (by decide)⟩

/-- C4: `RK.Float` returns the error `ErrIsInt` (with value 0) if and only if
the word decodes as an integer (bit 1 set and bit 0 clear); for every other
word it returns no error and the float that `RK.number` returns; `RK.String`
returns a text for either tag, the formatted float or the formatted integer. -/
theorem rk_float_error_iff (lib : GoLib) (w : RK) :
    (RK.Float lib w = (0, some GoError.ErrIsInt) ↔
        (Nat.testBit w 1 = true ∧ Nat.testBit w 0 = false)) ∧
      ((RK.Float lib w).2 = some GoError.ErrIsInt ↔
        (RK.number lib w).2.2 = false) ∧
      (¬ (Nat.testBit w 1 = true ∧ Nat.testBit w 0 = false) →
        RK.Float lib w = ((RK.number lib w).2.1, none)) ∧
      (∃ s : String, RK.String lib w = s ∧
        s = if (RK.number lib w).2.2 then lib.FormatFloat (RK.number lib w).2.1 'f' (-1) 64
          else FormatInt10 (RK.number lib w).1) := by
  have ht := number_isFloat lib w
  have hF : RK.Float lib w =
      if !(RK.number lib w).2.2 then (0, some GoError.ErrIsInt)
      else ((RK.number lib w).2.1, none) := rfl
  refine ⟨?_, ?_, ?_, ?_⟩
  · rw [hF, ht]
    cases Nat.testBit w 1 <;> cases Nat.testBit w 0 <;> simp
  · rw [hF]
    cases (RK.number lib w).2.2 <;> simp
  · intro h
    rw [hF, ht]
    revert h
    cases Nat.testBit w 1 <;> cases Nat.testBit w 0 <;> simp
  · exact ⟨_, rfl, rfl⟩

/-- The payload does not depend on the multiplied flag. -/
theorem payload_clearMultiplied (w : Nat) (hw : w < 2 ^ 32) :
    payload (clearMultiplied w) = payload w := by
  unfold payload clearMultiplied
  have hb : Nat.testBit (w &&& 0xFFFFFFFE) 31 = Nat.testBit w 31 := by
    rw [Nat.testBit_and]
    have : Nat.testBit 0xFFFFFFFE 31 = true := by decide
    rw [this, Bool.and_true]
  have hd : (w &&& 0xFFFFFFFE) / 4 = w / 4 := by
    have h4 : ∀ x : Nat, x / 4 = x / 2 / 2 := fun x => by omega
    rw [h4, h4 w, Nat.and_div_two, Nat.and_div_two]
    have hm : (0xFFFFFFFE : Nat) / 2 / 2 = 2 ^ 30 - 1 := by decide
    rw [hm, Nat.and_pow_two_sub_one_eq_mod]
    apply Nat.mod_eq_of_lt
    have e1 : (2 : Nat) ^ 32 = 4294967296 := by norm_num
    have e2 : (2 : Nat) ^ 30 = 1073741824 := by norm_num
    rw [e1] at hw
    rw [e2]
    omega
  rw [hb, hd]

/-- C5: multiplier law. For every 32-bit word with the is-integer flag clear
and the multiplied flag set, the float decoded by `RK.number` equals the float
decoded from the word with the multiplied flag cleared, divided by 100 in
`float64`, and both words decode with the float tag. -/
theorem rk_number_multiplier (lib : GoLib) (w : RK) (hw : w < 2 ^ 32)
    (hInt : Nat.testBit w 1 = false) (hMul : Nat.testBit w 0 = true) :
    (RK.number lib w).2.1 =
        lib.fdiv (RK.number lib (clearMultiplied w)).2.1 float100 ∧
      (RK.number lib w).2.2 = true ∧
      (RK.number lib (clearMultiplied w)).2.2 = true := by
  have hI : w &&& 2 = 0 := (and_two_eq_zero_iff w).mpr hInt
  have hM : w &&& 1 ≠ 0 := by
    intro h
    rw [and_one_eq_zero_iff] at h
    rw [h] at hMul
    exact Bool.noConfusion hMul
  have hcw : clearMultiplied w < 2 ^ 32 :=
    Nat.and_lt_two_pow w (show 0xFFFFFFFE < 2 ^ 32 by decide)
  have hI2 : clearMultiplied w &&& 2 = 0 := by
    unfold clearMultiplied
    rw [Nat.and_assoc]
    have : (0xFFFFFFFE : Nat) &&& 2 = 2 := by decide
    rw [this, hI]
  have hM2 : clearMultiplied w &&& 1 = 0 := by
    unfold clearMultiplied
    rw [Nat.and_assoc]
    have : (0xFFFFFFFE : Nat) &&& 1 = 0 := by decide
    rw [this, Nat.and_zero]
  have hs : toInt32 (clearMultiplied w) >>> (2 : Nat) = toInt32 w >>> (2 : Nat) := by
    rw [toInt32_shiftRight _ hcw, toInt32_shiftRight w hw, payload_clearMultiplied w hw]
  have h1 : RK.number lib w =
      ((0 : Int), lib.fdiv ((toUint64 (toInt32 w >>> (2 : Nat)) <<< 34) % 2 ^ 64) float100, true) := by
    unfold RK.number
    simp only [hI, hM, ne_eq, not_false_eq_true, if_true]
  have h2 : RK.number lib (clearMultiplied w) =
      ((0 : Int), ((toUint64 (toInt32 w >>> (2 : Nat)) <<< 34) % 2 ^ 64 : Nat), true) := by
    unfold RK.number
    simp only [hI2, hM2, ne_eq, not_true_eq_false, if_true, if_false, hs]
  rw [h1, h2]
  exact ⟨rfl, rfl, rfl⟩

/-- Instance of `rk_number_multiplier` at the word `0x40590001`, whose payload
is the upper part of the double `100`. -/
theorem rk_number_multiplier_witness :
    ((1079574529 : Nat) < 2 ^ 32 ∧ Nat.testBit 1079574529 1 = false ∧
        Nat.testBit 1079574529 0 = true) ∧
      ((RK.number trivLib 1079574529).2.1 =
          trivLib.fdiv (RK.number trivLib (clearMultiplied 1079574529)).2.1 float100 ∧
        (RK.number trivLib 1079574529).2.2 = true ∧
        (RK.number trivLib (clearMultiplied 1079574529)).2.2 = true) :=
  ⟨⟨by decide, by decide, by decide⟩,
    rk_number_multiplier trivLib 1079574529 (by decide) (by decide) (by decide)⟩

/-- The word `168` (payload 42, both flags clear) takes the float branch of
`RK.number` under every library: its is-integer flag is clear. -/
theorem number_168 (lib : GoLib) : RK.number lib 168 = (0, 42 * 2 ^ 34, true) := rfl

/-- C6, as stated, fails: the word `168` (payload 42, both flag bits zero) does
not decode to the integer 42; it decodes with the float tag, to the double
whose bit pattern is `42 * 2^34`. -/
theorem rk_number_168_not_integer :
    RK.number trivLib 168 = (0, 42 * 2 ^ 34, true) ∧
      RK.number trivLib 168 ≠ (42, 0, false) :=
  ⟨rfl, by decide⟩

/-- C6, amended: the word `170` (payload 42, is-integer flag set, multiplied
flag clear) decodes through `RK.number` to the integer 42 and `RK.String`
renders it as `"42"`, whereas the word `168` with both flag bits zero decodes
with the float tag and is rendered by `strconv.FormatFloat`. -/
theorem rk_number_170 (lib : GoLib) :
    170 = 42 * 4 + 2 ∧ RK.number lib 170 = (42, 0, false) ∧
      RK.String lib 170 = "42" ∧
      (RK.number lib 168).2.2 = true ∧
      RK.String lib 168 = lib.FormatFloat (42 * 2 ^ 34) 'f' (-1) 64 :=
  ⟨rfl, rfl, rfl, rfl, rfl⟩

/-! ## Substring test -/

/-- `containsAt` decides the infix relation on character lists. -/
theorem containsAt_iff (sub s : List Char) : containsAt sub s = true ↔ sub <:+: s := by
  induction s with
  | nil =>
    simp [containsAt, List.isEmpty_iff]
  | cons c cs ih =>
    rw [containsAt, Bool.or_eq_true, ih, List.infix_cons_iff, List.isPrefixOf_iff_prefix]

/-! ## Format resolver: theorems -/

/-- The two date branches of `XfRk.String` compute `serialOf`. -/
theorem serialOf_eq (lib : GoLib) (rk : RK) :
    serialOf lib rk =
      if (!(RK.number lib rk).2.2) = true then lib.float64OfInt (RK.number lib rk).1
      else (RK.number lib rk).2.1 := by
  unfold serialOf
  cases (RK.number lib rk).2.2 <;> rfl

/-- `XfRk.String` on a style index in range, by format code. -/
theorem xfrk_string_in_range (lib : GoLib) (xf : XfRk) (wb : WorkBook) (st : StXfData)
    (hst : wb.Xfs[xf.Index]? = some st) :
    XfRk.String lib xf wb =
      if st.formatNo ≥ 164 then
        match wb.Formats st.formatNo with
        | some formatter =>
          if (lib.ToLower formatter.str == "general" ||
              Contains formatter.str "#" ||
              Contains formatter.str ".00" ||
              Contains (lib.ToLower formatter.str) "m/y" ||
              Contains (lib.ToLower formatter.str) "d/y" ||
              Contains (lib.ToLower formatter.str) "m.y" ||
              Contains (lib.ToLower formatter.str) "d.y" ||
              Contains (lib.ToLower formatter.str) "h:" ||
              Contains (lib.ToLower formatter.str) "д.г") = true then
            RK.String lib xf.Rk
          else
            lib.yymmddFormat
              (lib.timeFromExcelTime (serialOf lib xf.Rk) (wb.dateMode == 1)) formatter.str
        | none => RK.String lib xf.Rk
      else if ((14 ≤ st.formatNo && st.formatNo ≤ 17) || st.formatNo == 22 ||
          (27 ≤ st.formatNo && st.formatNo ≤ 36) ||
          (50 ≤ st.formatNo && st.formatNo ≤ 58)) = true then
        lib.formatRFC3339 (lib.timeFromExcelTime (serialOf lib xf.Rk) (wb.dateMode == 1))
      else RK.String lib xf.Rk := by
  obtain ⟨h, hget⟩ := List.getElem?_eq_some_iff.mp hst
  have hget2 : wb.Xfs.get ⟨xf.Index, h⟩ = st := hget
  unfold XfRk.String
  simp only [gt_iff_lt, h, dite_true, hget2, serialOf_eq]

/-- The pattern test of `XfRk.String` is the numeric-pattern class. -/
theorem numericPattern_iff (lib : GoLib) (str : String) :
    (lib.ToLower str == "general" ||
        Contains str "#" ||
        Contains str ".00" ||
        Contains (lib.ToLower str) "m/y" ||
        Contains (lib.ToLower str) "d/y" ||
        Contains (lib.ToLower str) "m.y" ||
        Contains (lib.ToLower str) "d.y" ||
        Contains (lib.ToLower str) "h:" ||
        Contains (lib.ToLower str) "д.г") = true ↔ numericPattern lib str := by
  unfold numericPattern
  simp only [Bool.or_eq_true, beq_iff_eq, List.mem_cons, List.mem_singleton,
    List.not_mem_nil, or_false, exists_eq_or_imp, exists_eq_left]
  tauto

/-- The format-code test of `XfRk.String` is membership in the built-in date
codes. -/
theorem builtinDateCodes_iff (fNo : Nat) :
    ((14 ≤ fNo && fNo ≤ 17) || fNo == 22 || (27 ≤ fNo && fNo ≤ 36) ||
        (50 ≤ fNo && fNo ≤ 58)) = true ↔ fNo ∈ builtinDateCodes := by
  unfold builtinDateCodes
  simp only [Bool.or_eq_true, Bool.and_eq_true, decide_eq_true_eq, beq_iff_eq,
    List.mem_cons, List.mem_singleton, List.not_mem_nil, or_false]
  omega

/-- C7: for an `XfRk` whose style index is in range, whose format code is at
least 164 and for which the custom-format table holds a pattern, `XfRk.String`
returns the plain-number rendering `RK.String()` when the lower-cased pattern
equals `"general"`, or the pattern contains `"#"` or `".00"`, or the lower-cased
pattern contains one of `"m/y"`, `"d/y"`, `"m.y"`, `"d.y"`, `"h:"`, `"д.г"`;
otherwise it returns the custom-pattern date formatting of the converted
serial. A pattern containing both `"#"` and `"m/y"` renders via the numeric
branch. -/
theorem xfrk_string_custom (lib : GoLib) (xf : XfRk) (wb : WorkBook) (st : StXfData)
    (fmt : Format) (hst : wb.Xfs[xf.Index]? = some st) (hfNo : 164 ≤ st.formatNo)
    (hfmt : wb.Formats st.formatNo = some fmt) :
    (numericPattern lib fmt.str → XfRk.String lib xf wb = RK.String lib xf.Rk) ∧
      (¬ numericPattern lib fmt.str →
        XfRk.String lib xf wb =
          lib.yymmddFormat
            (lib.timeFromExcelTime (serialOf lib xf.Rk) (wb.dateMode == 1)) fmt.str) ∧
      (Contains fmt.str "#" = true → Contains fmt.str "m/y" = true →
        XfRk.String lib xf wb = RK.String lib xf.Rk) := by
  have hS := xfrk_string_in_range lib xf wb st hst
  rw [if_pos hfNo, hfmt] at hS
  dsimp only at hS
  have hiff := numericPattern_iff lib fmt.str
  refine ⟨?_, ?_, ?_⟩
  · intro hn
    rw [hS, if_pos (hiff.mpr hn)]
  · intro hn
    rw [hS, if_neg (fun h => hn (hiff.mp h))]
  · intro hsharp _
    rw [hS, if_pos (hiff.mpr (Or.inr (Or.inl (Or.inl hsharp))))]

/-- Instance of `xfrk_string_custom`: under format code 164 with the pattern
`"#,##0 m/y"` the packed integer 42 renders as `"42"`. -/
theorem xfrk_string_custom_witness :
    ((oneStyleBook 164 (some "#,##0 m/y")).Xfs[0]? = some { formatNo := 164 } ∧
        164 ≤ 164 ∧
        (oneStyleBook 164 (some "#,##0 m/y")).Formats 164 = some { str := "#,##0 m/y" }) ∧
      XfRk.String trivLib { Index := 0, Rk := 170 } (oneStyleBook 164 (some "#,##0 m/y")) =
        "42" :=
  ⟨⟨rfl, by decide, rfl⟩,
    (xfrk_string_custom trivLib { Index := 0, Rk := 170 }
      (oneStyleBook 164 (some "#,##0 m/y")) { formatNo := 164 } { str := "#,##0 m/y" }
      rfl (by decide) rfl).2.2 (by decide) (by decide)⟩

/-- C8: for an `XfRk` whose style index is in range and whose format code is
below 164, `XfRk.String` takes the date path (the decoded value, an integer
being converted to float, passed to `timeFromExcelTime` with the 1904 flag
`dateMode == 1` and rendered in RFC3339 form) when the code is one of
`14..17, 22, 27..36, 50..58`, and returns `RK.String()` for every other code;
22 and 36 are date codes and 21 is not. -/
theorem xfrk_string_builtin (lib : GoLib) (xf : XfRk) (wb : WorkBook) (st : StXfData)
    (hst : wb.Xfs[xf.Index]? = some st) (hlt : st.formatNo < 164) :
    (st.formatNo ∈ builtinDateCodes →
        XfRk.String lib xf wb =
          lib.formatRFC3339
            (lib.timeFromExcelTime (serialOf lib xf.Rk) (wb.dateMode == 1))) ∧
      (st.formatNo ∉ builtinDateCodes →
        XfRk.String lib xf wb = RK.String lib xf.Rk) ∧
      (22 ∈ builtinDateCodes ∧ 36 ∈ builtinDateCodes ∧ 21 ∉ builtinDateCodes) := by
  have hS := xfrk_string_in_range lib xf wb st hst
  rw [if_neg (by omega)] at hS
  have hiff := builtinDateCodes_iff st.formatNo
  refine ⟨?_, ?_, by decide, by decide, by decide⟩
  · intro hd
    rw [hS, if_pos (hiff.mpr hd)]
  · intro hd
    rw [hS, if_neg (fun h => hd (hiff.mp h))]

/-- Instance of `xfrk_string_builtin`: under format code 21 the packed integer
42 renders as `"42"`. -/
theorem xfrk_string_builtin_witness :
    ((oneStyleBook 21 none).Xfs[0]? = some { formatNo := 21 } ∧ 21 < 164) ∧
      XfRk.String trivLib { Index := 0, Rk := 170 } (oneStyleBook 21 none) = "42" :=
  ⟨⟨rfl, by decide⟩,
    (xfrk_string_builtin trivLib { Index := 0, Rk := 170 } (oneStyleBook 21 none)
      { formatNo := 21 } rfl (by decide)).2.1 (by decide)⟩

/-- C9: `XfRk.String` does not fail on a lookup. If the style index is not
below the length of the style table, or the format code is at least 164 and
the custom-format table has no pattern for it, the result is `RK.String()` of
the packed word. -/
theorem xfrk_string_fallback (lib : GoLib) (xf : XfRk) (wb : WorkBook)
    (h : wb.Xfs.length ≤ xf.Index ∨
      ∃ st, wb.Xfs[xf.Index]? = some st ∧ 164 ≤ st.formatNo ∧
        wb.Formats st.formatNo = none) :
    XfRk.String lib xf wb = RK.String lib xf.Rk := by
  rcases h with h | ⟨st, hst, hfNo, hnone⟩
  · unfold XfRk.String
    simp only [gt_iff_lt]
    rw [dif_neg (by omega)]
  · rw [xfrk_string_in_range lib xf wb st hst, if_pos hfNo, hnone]

/-- Instance of `xfrk_string_fallback`: a style index past the end of the
style table, and a custom format code with no pattern. -/
theorem xfrk_string_fallback_witness :
    ((oneStyleBook 22 none).Xfs.length ≤ 7 ∧
        XfRk.String trivLib { Index := 7, Rk := 170 } (oneStyleBook 22 none) = "42") ∧
      ((oneStyleBook 200 none).Xfs[0]? = some { formatNo := 200 } ∧ 164 ≤ 200 ∧
          (oneStyleBook 200 none).Formats 200 = none) ∧
        XfRk.String trivLib { Index := 0, Rk := 170 } (oneStyleBook 200 none) = "42" :=
  ⟨⟨by decide,
      xfrk_string_fallback trivLib { Index := 7, Rk := 170 } (oneStyleBook 22 none)
        (Or.inl (by decide))⟩,
    ⟨rfl, by decide, rfl⟩,
    xfrk_string_fallback trivLib { Index := 0, Rk := 170 } (oneStyleBook 200 none)
      (Or.inr ⟨{ formatNo := 200 }, rfl, by decide, rfl⟩)⟩

/-! ## Run variants: theorems -/

/-- The loop of `MulrkCol.String` overwrites positions `i` to
`i + len(rest) - 1` of the result slice with the renderings of `rest`. -/
theorem fill_eq (lib : GoLib) (wb : WorkBook) (rest : List XfRk) (i : Nat)
    (res : List String) (hlen : i + rest.length ≤ res.length) :
    MulrkCol.fill lib wb rest i res =
      res.take i ++ rest.map (fun x => x.String lib wb) ++ res.drop (i + rest.length) := by
  induction rest generalizing i res with
  | nil =>
    simp [MulrkCol.fill]
  | cons x rest ih =>
    simp only [List.length_cons] at hlen
    rw [MulrkCol.fill, ih (i + 1) _ (by rw [List.length_set]; omega)]
    have hi : i < res.length := by omega
    rw [List.set_eq_take_append_cons_drop, if_pos hi]
    have ht : List.take (i + 1) (List.take i res ++ x.String lib wb :: List.drop (i + 1) res) =
        List.take i res ++ [x.String lib wb] := by
      rw [List.take_append_eq_append_take]
      simp [List.length_take, Nat.min_eq_left (Nat.le_of_lt hi)]
    have hd : List.drop (i + 1 + rest.length)
        (List.take i res ++ x.String lib wb :: List.drop (i + 1) res) =
        List.drop (i + (rest.length + 1)) res := by
      rw [List.drop_append_eq_append_drop]
      have h1 : List.drop (i + 1 + rest.length) (List.take i res) = [] :=
        List.drop_eq_nil_of_le (by rw [List.length_take]; omega)
      have h2 : i + 1 + rest.length - (List.take i res).length = rest.length + 1 := by
        rw [List.length_take]
        omega
      rw [h1, h2, List.nil_append, List.drop_succ_cons, List.drop_drop]
      congr 1
      omega
    rw [ht, hd]
    simp

/-- `MulrkCol.String` renders each stored pair, in order. -/
theorem mulrk_string_eq_map (lib : GoLib) (c : MulrkCol) (wb : WorkBook) :
    MulrkCol.String lib c wb = c.Xfrks.map (fun x => x.String lib wb) := by
  unfold MulrkCol.String
  rw [fill_eq lib wb c.Xfrks 0 _ (by simp)]
  simp

/-- `MulrkCol.String` returns one text per stored pair. -/
theorem mulrk_string_length (lib : GoLib) (c : MulrkCol) (wb : WorkBook) :
    (MulrkCol.String lib c wb).length = c.Xfrks.length := by
  rw [mulrk_string_eq_map, List.length_map]

/-- `MulBlankCol.String` returns one text per stored style reference. -/
theorem mulblank_string_length (c : MulBlankCol) (wb : WorkBook) :
    (MulBlankCol.String c wb).length = c.Xfs.length := by
  unfold MulBlankCol.String
  rw [List.length_replicate]

/-- C10, as stated, fails: a `MulrkCol` and a `MulBlankCol` spanning columns
0 to 5 that hold no entry render to no text value, not to six. -/
theorem run_length_counterexample :
    (MulrkCol.String trivLib { RowB := 0, FirstColB := 0, Xfrks := [], LastColB := 5 }
        (oneStyleBook 0 none)).length = 0 ∧
      (MulBlankCol.String { RowB := 0, FirstColB := 0, Xfs := [], LastColB := 5 }
        (oneStyleBook 0 none)).length = 0 ∧
      MulrkCol.LastCol { RowB := 0, FirstColB := 0, Xfrks := [], LastColB := 5 } -
          MulrkCol.FirstCol { RowB := 0, FirstColB := 0, Xfrks := [], LastColB := 5 } + 1 = 6 ∧
      MulBlankCol.LastCol { RowB := 0, FirstColB := 0, Xfs := [], LastColB := 5 } -
          MulBlankCol.FirstCol { RowB := 0, FirstColB := 0, Xfs := [], LastColB := 5 } + 1 = 6 :=
  ⟨by decide, by decide, by decide, by decide⟩

/-- C10, amended: run-length invariant. For every `MulrkCol` and every
`MulBlankCol` that holds one entry per spanned column (`len(Xfrks)`, resp.
`len(Xfs)`, equals `c1 - c0 + 1` with `c0 = FirstCol()` and `c1 = LastCol()`),
`String(wb)` returns exactly `c1 - c0 + 1` text values. -/
theorem run_length (lib : GoLib) (c : MulrkCol) (b : MulBlankCol) (wb : WorkBook)
    (hc : (c.Xfrks.length : Int) = (c.LastCol : Int) - (c.FirstCol : Int) + 1)
    (hb : (b.Xfs.length : Int) = (b.LastCol : Int) - (b.FirstCol : Int) + 1) :
    ((MulrkCol.String lib c wb).length : Int) = (c.LastCol : Int) - (c.FirstCol : Int) + 1 ∧
      ((MulBlankCol.String b wb).length : Int) =
        (b.LastCol : Int) - (b.FirstCol : Int) + 1 := by
  rw [mulrk_string_length, mulblank_string_length]
  exact ⟨hc, hb⟩

/-- Instance of `run_length`: a run of two packed words over columns 3 to 4 and
a blank run over columns 1 to 3. -/
theorem run_length_witness :
    ((2 : Int) = (4 : Int) - (3 : Int) + 1 ∧ (3 : Int) = (3 : Int) - (1 : Int) + 1) ∧
      MulrkCol.String trivLib
          { RowB := 0, FirstColB := 3, Xfrks := [⟨0, 170⟩, ⟨0, 6⟩], LastColB := 4 }
          (oneStyleBook 0 none) = ["42", "1"] ∧
      MulBlankCol.String { RowB := 0, FirstColB := 1, Xfs := [15, 15, 15], LastColB := 3 }
          (oneStyleBook 0 none) = ["", "", ""] ∧
      (((MulrkCol.String trivLib
          { RowB := 0, FirstColB := 3, Xfrks := [⟨0, 170⟩, ⟨0, 6⟩], LastColB := 4 }
          (oneStyleBook 0 none)).length : Int) = (4 : Int) - (3 : Int) + 1 ∧
        ((MulBlankCol.String { RowB := 0, FirstColB := 1, Xfs := [15, 15, 15], LastColB := 3 }
          (oneStyleBook 0 none)).length : Int) = (3 : Int) - (1 : Int) + 1) :=
  ⟨⟨by decide, by decide⟩, by decide, by decide,
    run_length trivLib
      { RowB := 0, FirstColB := 3, Xfrks := [⟨0, 170⟩, ⟨0, 6⟩], LastColB := 4 }
      { RowB := 0, FirstColB := 1, Xfs := [15, 15, 15], LastColB := 3 }
      (oneStyleBook 0 none) (by decide) (by decide)⟩

/-! ## Number cells: theorems -/

/-- `NumberCol.String` when the custom-format table holds no pattern at the
style's format code. -/
theorem numbercol_string_no_pattern (lib : GoLib) (c : NumberCol) (wb : WorkBook)
    (st : StXfData) (hst : wb.Xfs[c.Index]? = some st)
    (hnone : wb.Formats st.formatNo = none) :
    NumberCol.String lib c wb =
      if st.formatNo = 1 then Except.ok [lib.FormatFloat c.Float 'f' 0 64]
      else if st.formatNo = 2 then Except.ok [lib.FormatFloat c.Float 'f' 2 64]
      else if st.formatNo = 3 then Except.ok [lib.FormatFloat c.Float 'f' 0 64]
      else if st.formatNo = 4 then Except.ok [lib.FormatFloat c.Float 'f' 2 64]
      else if st.formatNo ≠ 0 then Except.error GoPanic.nilDereference
      else Except.ok [lib.FormatFloat c.Float 'f' (-1) 64] := by
  unfold NumberCol.String
  rw [hst]
  simp only [hnone, Bool.false_eq_true, if_false]

/-- `NumberCol.String` when the custom-format table holds the pattern `fmt` at
the style's format code. -/
theorem numbercol_string_pattern (lib : GoLib) (c : NumberCol) (wb : WorkBook)
    (st : StXfData) (fmt : Format) (hst : wb.Xfs[c.Index]? = some st)
    (hfmt : wb.Formats st.formatNo = some fmt) :
    NumberCol.String lib c wb =
      if (Contains (lib.ToLower fmt.str) "#" || Contains (lib.ToLower fmt.str) ".00") = true
      then Except.ok [lib.FormatFloat c.Float 'f' (-1) 64]
      else if st.formatNo = 1 then Except.ok [lib.FormatFloat c.Float 'f' 0 64]
      else if st.formatNo = 2 then Except.ok [lib.FormatFloat c.Float 'f' 2 64]
      else if st.formatNo = 3 then Except.ok [lib.FormatFloat c.Float 'f' 0 64]
      else if st.formatNo = 4 then Except.ok [lib.FormatFloat c.Float 'f' 2 64]
      else if st.formatNo ≠ 0 then
        Except.ok [lib.yymmddFormat (lib.timeFromExcelTime c.Float (wb.dateMode == 1)) fmt.str]
      else Except.ok [lib.FormatFloat c.Float 'f' (-1) 64] := by
  unfold NumberCol.String
  rw [hst]
  simp only [hfmt]

/-- C11: for a `NumberCol` whose style index is in range and for which the
custom-format table holds no pattern at the style's format code `fNo`:
`fNo = 1` or `3` renders the float in fixed notation with 0 decimal places,
`fNo = 2` or `4` with exactly 2 decimal places, and `fNo = 0` with the minimal
round-tripping digits (`FormatFloat` with precision `-1`); with style index 0,
format code 2 and the float 3.14159, fixed notation gives `["3.14"]`. -/
theorem numbercol_string_fixed (lib : GoLib) (c : NumberCol) (wb : WorkBook)
    (st : StXfData) (hst : wb.Xfs[c.Index]? = some st)
    (hnone : wb.Formats st.formatNo = none) :
    ((st.formatNo = 1 ∨ st.formatNo = 3) →
        NumberCol.String lib c wb = Except.ok [lib.FormatFloat c.Float 'f' 0 64]) ∧
      ((st.formatNo = 2 ∨ st.formatNo = 4) →
        NumberCol.String lib c wb = Except.ok [lib.FormatFloat c.Float 'f' 2 64]) ∧
      (st.formatNo = 0 →
        NumberCol.String lib c wb = Except.ok [lib.FormatFloat c.Float 'f' (-1) 64]) ∧
      (c.Index = 0 → st.formatNo = 2 → c.Float = float3_14159 →
        lib.FormatFloat float3_14159 'f' 2 64 = fixedNotation float3_14159 2 →
        NumberCol.String lib c wb = Except.ok ["3.14"]) := by
  have hS := numbercol_string_no_pattern lib c wb st hst hnone
  refine ⟨?_, ?_, ?_, ?_⟩
  · rintro (h | h) <;> rw [hS, h] <;> rfl
  · rintro (h | h) <;> rw [hS, h] <;> rfl
  · intro h
    rw [hS, h]
    rfl
  · intro _ h hf hfix
    rw [hS, h, hf, hfix]
    rfl

/-- Instance of `numbercol_string_fixed`: style index 0, format code 2, no
custom pattern, the float 3.14159, under the fixed-notation library. -/
theorem numbercol_string_fixed_witness :
    ((oneStyleBook 2 none).Xfs[0]? = some { formatNo := 2 } ∧
        (oneStyleBook 2 none).Formats 2 = none) ∧
      NumberCol.String fixedLib
          { RowB := 0, FirstColB := 0, Index := 0, Float := float3_14159 }
          (oneStyleBook 2 none) = Except.ok ["3.14"] :=
  ⟨⟨rfl, rfl⟩,
    (numbercol_string_fixed fixedLib
      { RowB := 0, FirstColB := 0, Index := 0, Float := float3_14159 }
      (oneStyleBook 2 none) { formatNo := 2 } rfl rfl).2.2.2 rfl rfl rfl rfl⟩

/-- C12, evaluated at the failing input: with format code 14 and an empty
custom-format table, `NumberCol.String` dereferences the `nil` entry
`wb.Formats[14]` and panics, returning no text, while `XfRk.String` under the
same style returns a text. -/
theorem numbercol_string_nil_format :
    (oneStyleBook 14 none).Xfs[0]? = some { formatNo := 14 } ∧
      NumberCol.String trivLib { RowB := 0, FirstColB := 0, Index := 0, Float := 0 }
          (oneStyleBook 14 none) = Except.error GoPanic.nilDereference ∧
      XfRk.String trivLib { Index := 0, Rk := 0 } (oneStyleBook 14 none) = "rfc3339" :=
  ⟨rfl, rfl, rfl⟩

/-- `ToLower` of `trivLib`, character by character. -/
theorem trivLib_toLower (s : String) :
    trivLib.ToLower s = String.mk (s.data.map Char.toLower) :=
  String.map_eq Char.toLower s

/-- C13, as stated, fails: under the built-in date code 22 `NumberCol.String`
does not produce the RFC3339 text that `XfRk.String` returns for a packed word
decoding to the same float. With a pattern in the custom-format table it
renders through `yymmdd.Format` under that pattern (`trivLib` returns the
pattern itself there, and `"rfc3339"` for `t.Format(time.RFC3339)`); without
one it returns no text. -/
theorem numbercol_date_counterexample :
    22 ∈ builtinDateCodes ∧ serialOf trivLib 0 = 0 ∧
      XfRk.String trivLib { Index := 0, Rk := 0 } (oneStyleBook 22 (some "yyyy-mm-dd")) =
        "rfc3339" ∧
      NumberCol.String trivLib { RowB := 0, FirstColB := 0, Index := 0, Float := 0 }
          (oneStyleBook 22 (some "yyyy-mm-dd")) = Except.ok ["yyyy-mm-dd"] ∧
      NumberCol.String trivLib { RowB := 0, FirstColB := 0, Index := 0, Float := 0 }
          (oneStyleBook 22 (some "yyyy-mm-dd")) ≠
        Except.ok [XfRk.String trivLib { Index := 0, Rk := 0 }
          (oneStyleBook 22 (some "yyyy-mm-dd"))] ∧
      NumberCol.String trivLib { RowB := 0, FirstColB := 0, Index := 0, Float := 0 }
          (oneStyleBook 22 none) = Except.error GoPanic.nilDereference := by
  have hX : XfRk.String trivLib { Index := 0, Rk := 0 }
      (oneStyleBook 22 (some "yyyy-mm-dd")) = "rfc3339" := rfl
  have hN : NumberCol.String trivLib { RowB := 0, FirstColB := 0, Index := 0, Float := 0 }
      (oneStyleBook 22 (some "yyyy-mm-dd")) = Except.ok ["yyyy-mm-dd"] := by
    rw [numbercol_string_pattern trivLib
      { RowB := 0, FirstColB := 0, Index := 0, Float := 0 }
      (oneStyleBook 22 (some "yyyy-mm-dd")) { formatNo := 22 } { str := "yyyy-mm-dd" }
      rfl rfl, trivLib_toLower]
    rfl
  refine ⟨by decide, rfl, hX, hN, ?_, rfl⟩
  rw [hN, hX]
  intro h
  simp at h

/-- C13, amended: for a `NumberCol` whose style index is in range, whose format
code lies in the built-in date ranges and for which the custom-format table
holds a pattern at that code whose lower-cased form contains neither `"#"` nor
`".00"`, `NumberCol.String` converts the float by `timeFromExcelTime` under the
workbook's epoch mode and renders it by `yymmdd.Format` under that pattern,
whereas `XfRk.String` under the same style renders the converted serial in
RFC3339 form. -/
theorem numbercol_string_builtin_date (lib : GoLib) (c : NumberCol) (xf : XfRk)
    (wb : WorkBook) (st : StXfData) (fmt : Format)
    (hst : wb.Xfs[c.Index]? = some st) (hxf : xf.Index = c.Index)
    (hdate : st.formatNo ∈ builtinDateCodes)
    (hfmt : wb.Formats st.formatNo = some fmt)
    (hsharp : Contains (lib.ToLower fmt.str) "#" = false)
    (hzeros : Contains (lib.ToLower fmt.str) ".00" = false) :
    NumberCol.String lib c wb =
        Except.ok [lib.yymmddFormat
          (lib.timeFromExcelTime c.Float (wb.dateMode == 1)) fmt.str] ∧
      XfRk.String lib xf wb =
        lib.formatRFC3339
          (lib.timeFromExcelTime (serialOf lib xf.Rk) (wb.dateMode == 1)) := by
  have hcodes : 14 ≤ st.formatNo ∧ st.formatNo ≤ 58 := by
    unfold builtinDateCodes at hdate
    simp only [List.mem_cons, List.mem_singleton, List.not_mem_nil, or_false] at hdate
    omega
  constructor
  · rw [numbercol_string_pattern lib c wb st fmt hst hfmt, hsharp, hzeros]
    rw [if_neg (by decide), if_neg (by omega), if_neg (by omega), if_neg (by omega),
      if_neg (by omega), if_pos (by omega)]
  · rw [xfrk_string_in_range lib xf wb st (by rw [hxf]; exact hst), if_neg (by omega),
      if_pos ((builtinDateCodes_iff st.formatNo).mpr hdate)]

/-- Instance of `numbercol_string_builtin_date` at format code 22 with the
pattern `"yyyy-mm-dd"`. -/
theorem numbercol_string_builtin_date_witness :
    ((oneStyleBook 22 (some "yyyy-mm-dd")).Xfs[0]? = some { formatNo := 22 } ∧
        (0 : Nat) = 0 ∧ 22 ∈ builtinDateCodes ∧
        (oneStyleBook 22 (some "yyyy-mm-dd")).Formats 22 = some { str := "yyyy-mm-dd" } ∧
        Contains (trivLib.ToLower "yyyy-mm-dd") "#" = false ∧
        Contains (trivLib.ToLower "yyyy-mm-dd") ".00" = false) ∧
      (NumberCol.String trivLib { RowB := 0, FirstColB := 0, Index := 0, Float := 0 }
          (oneStyleBook 22 (some "yyyy-mm-dd")) =
          Except.ok [trivLib.yymmddFormat (trivLib.timeFromExcelTime 0 false) "yyyy-mm-dd"] ∧
        XfRk.String trivLib { Index := 0, Rk := 0 } (oneStyleBook 22 (some "yyyy-mm-dd")) =
          trivLib.formatRFC3339
            (trivLib.timeFromExcelTime (serialOf trivLib 0) false)) :=
  ⟨⟨rfl, rfl, by decide, rfl, by rw [trivLib_toLower]; decide,
      by rw [trivLib_toLower]; decide⟩,
    numbercol_string_builtin_date trivLib
      { RowB := 0, FirstColB := 0, Index := 0, Float := 0 } { Index := 0, Rk := 0 }
      (oneStyleBook 22 (some "yyyy-mm-dd")) { formatNo := 22 } { str := "yyyy-mm-dd" }
      rfl rfl (by decide) rfl (by rw [trivLib_toLower]; decide)
      (by rw [trivLib_toLower]; decide)⟩

/-! ## String, packed and blank cells: theorems -/

/-- C14: for a `LabelsstCol` whose `Sst` index is below the length of the
shared-string table, `String(wb)` is the one-element sequence holding the
shared string at that index (index 5 pointing at `"hello"` gives `["hello"]`);
for an index at or past the end of the table the lookup fails and no text is
returned. -/
theorem labelsst_string (c : LabelsstCol) (wb : WorkBook) :
    (∀ h : c.Sst < wb.sst.length,
        LabelsstCol.String c wb = Except.ok [wb.sst.get ⟨c.Sst, h⟩]) ∧
      (wb.sst.length ≤ c.Sst →
        LabelsstCol.String c wb = Except.error GoPanic.indexOutOfRange) ∧
      (c.Sst = 5 → wb.sst[5]? = some "hello" →
        LabelsstCol.String c wb = Except.ok ["hello"]) := by
  refine ⟨?_, ?_, ?_⟩
  · intro h
    unfold LabelsstCol.String
    rw [List.getElem?_eq_getElem h]
    rfl
  · intro h
    unfold LabelsstCol.String
    rw [List.getElem?_eq_none h]
  · intro h5 hs
    unfold LabelsstCol.String
    rw [h5, hs]

/-- Instance of `labelsst_string`: index 5 of a table of six shared strings
points at `"hello"`. -/
theorem labelsst_string_witness :
    LabelsstCol.String { RowB := 0, FirstColB := 0, Xf := 0, Sst := 5 }
        { oneStyleBook 0 none with sst := ["a", "b", "c", "d", "e", "hello"] } =
      Except.ok ["hello"] :=
  (labelsst_string { RowB := 0, FirstColB := 0, Xf := 0, Sst := 5 }
    { oneStyleBook 0 none with sst := ["a", "b", "c", "d", "e", "hello"] }).2.2 rfl rfl

/-- C15: for every `MulrkCol`, `String(wb)` has length `len(c.Xfrks)` and its
`i`-th element is `c.Xfrks[i].String(wb)`; for every `RkCol`, `String(wb)` is
`[Xfrk.String(wb)]`; so a run holding a single pair renders the same as the
single packed cell with that pair. -/
theorem mulrk_string_elements (lib : GoLib) (c : MulrkCol) (r : RkCol) (wb : WorkBook) :
    (MulrkCol.String lib c wb).length = c.Xfrks.length ∧
      (∀ (i : Nat) (h : i < c.Xfrks.length),
        (MulrkCol.String lib c wb)[i]? = some ((c.Xfrks.get ⟨i, h⟩).String lib wb)) ∧
      RkCol.String lib r wb = [r.Xfrk.String lib wb] ∧
      (c.Xfrks = [r.Xfrk] → MulrkCol.String lib c wb = RkCol.String lib r wb) := by
  have hm := mulrk_string_eq_map lib c wb
  refine ⟨?_, ?_, rfl, ?_⟩
  · rw [hm, List.length_map]
  · intro i h
    rw [hm, List.getElem?_map, List.getElem?_eq_getElem h]
    rfl
  · intro h1
    rw [hm, h1]
    rfl

/-- C16: for every `MulBlankCol`, `String(wb)` has length `len(c.Xfs)` and every
element is the empty string, whatever the style references and the workbook;
for every `BlankCol`, `String(wb)` is `[""]`. -/
theorem mulblank_string_elements (c c2 : MulBlankCol) (b : BlankCol) (wb wb2 : WorkBook) :
    (MulBlankCol.String c wb).length = c.Xfs.length ∧
      (∀ s ∈ MulBlankCol.String c wb, s = "") ∧
      (c2.Xfs.length = c.Xfs.length →
        MulBlankCol.String c2 wb2 = MulBlankCol.String c wb) ∧
      BlankCol.String b wb = [""] := by
  refine ⟨mulblank_string_length c wb, ?_, ?_, rfl⟩
  · intro s hs
    unfold MulBlankCol.String at hs
    exact List.eq_of_mem_replicate hs
  · intro h
    unfold MulBlankCol.String
    rw [h]

/-! ## The float pattern of a packed word -/

/-- A 32-bit word with its flag bits cleared is four times its payload bits. -/
theorem clearFlags_eq (w : Nat) (hw : w < 2 ^ 32) : clearFlags w = 4 * (w / 4) := by
  unfold clearFlags
  have hd : (w &&& 0xFFFFFFFC) / 4 = w / 4 := by
    have h4 : ∀ x : Nat, x / 4 = x / 2 / 2 := fun x => by omega
    rw [h4, h4 w, Nat.and_div_two, Nat.and_div_two]
    have hm : (0xFFFFFFFC : Nat) / 2 / 2 = 2 ^ 30 - 1 := by decide
    rw [hm, Nat.and_pow_two_sub_one_eq_mod]
    apply Nat.mod_eq_of_lt
    have e1 : (2 : Nat) ^ 32 = 4294967296 := by norm_num
    have e2 : (2 : Nat) ^ 30 = 1073741824 := by norm_num
    rw [e1] at hw
    rw [e2]
    omega
  have hr : (w &&& 0xFFFFFFFC) % 4 = 0 := by
    have h := Nat.and_pow_two_sub_one_eq_mod (w &&& 0xFFFFFFFC) 2
    have e : (2 : Nat) ^ 2 - 1 = 3 := by decide
    have e4 : (2 : Nat) ^ 2 = 4 := by decide
    rw [e, e4, Nat.and_assoc] at h
    have hz : (0xFFFFFFFC : Nat) &&& 3 = 0 := by decide
    rw [hz, Nat.and_zero] at h
    exact h.symm
  omega

/-- The pattern `uint64(val) << 34` of `RK.number`, computed from the payload
bits alone. -/
theorem float_pattern_eq (w : Nat) (hw : w < 2 ^ 32) :
    (toUint64 (toInt32 w >>> (2 : Nat)) <<< 34) % 2 ^ 64 = (w / 4) * 2 ^ 34 := by
  rw [toInt32_shiftRight w hw, Nat.shiftLeft_eq]
  unfold toUint64 payload
  have hb := testBit31_iff w hw
  have e1 : (2 : Nat) ^ 32 = 4294967296 := by norm_num
  have e2 : (2 : Nat) ^ 31 = 2147483648 := by norm_num
  have e3 : (2 : Nat) ^ 34 = 17179869184 := by norm_num
  have e4 : (2 : Nat) ^ 64 = 18446744073709551616 := by norm_num
  have e5 : (2 : Int) ^ 30 = 1073741824 := by norm_num
  have e6 : (2 : Int) ^ 64 = 18446744073709551616 := by norm_num
  rw [e1] at hw
  rw [e2] at hb
  rw [e3, e4, e5, e6]
  by_cases h31 : w.testBit 31 = true
  · have hge := hb.mp h31
    rw [if_pos h31]
    omega
  · have hlt : w < 2147483648 := by
      by_contra hc
      exact h31 (hb.mpr (by omega))
    rw [if_neg h31]
    omega

/-- C17: for every 32-bit word with the is-integer flag clear, the 64-bit
pattern that `RK.number` reinterprets as a double is the word with its two
flag bits cleared, shifted left by 32. Its upper 30 bits are the payload bits
of the word, its low 34 bits are zero, and it is the pattern obtained from the
payload bits without sign extension. -/
theorem rk_float_pattern (lib : GoLib) (w : RK) (hw : w < 2 ^ 32)
    (hInt : Nat.testBit w 1 = false) :
    RK.number lib w =
        ((0 : Int), if Nat.testBit w 0 = true then lib.fdiv (clearFlags w <<< 32) float100
          else clearFlags w <<< 32, true) ∧
      (toUint64 (toInt32 w >>> (2 : Nat)) <<< 34) % 2 ^ 64 = clearFlags w <<< 32 ∧
      (clearFlags w <<< 32) / 2 ^ 34 = w / 4 ∧
      (clearFlags w <<< 32) % 2 ^ 34 = 0 ∧
      clearFlags w <<< 32 < 2 ^ 64 ∧
      clearFlags w <<< 32 = (w / 4) <<< 34 := by
  have hP := float_pattern_eq w hw
  have hC := clearFlags_eq w hw
  have e1 : (2 : Nat) ^ 32 = 4294967296 := by norm_num
  have e3 : (2 : Nat) ^ 34 = 17179869184 := by norm_num
  have e4 : (2 : Nat) ^ 64 = 18446744073709551616 := by norm_num
  have hS : clearFlags w <<< 32 = (w / 4) * 2 ^ 34 := by
    rw [Nat.shiftLeft_eq, hC, e1, e3]
    omega
  have hI : w &&& 2 = 0 := (and_two_eq_zero_iff w).mpr hInt
  refine ⟨?_, ?_, ?_, ?_, ?_, ?_⟩
  · unfold RK.number
    simp only [hI, if_true, hP, ← hS]
    by_cases hM : w &&& 1 = 0
    · have h0 := (and_one_eq_zero_iff w).mp hM
      simp only [hM, h0, ne_eq, not_true_eq_false, if_false, Bool.false_eq_true]
    · have h0 : w.testBit 0 = true := by
        rw [and_one_eq_zero_iff] at hM
        simpa using hM
      simp only [hM, h0, ne_eq, not_false_eq_true, if_true]
  · rw [hP, hS]
  · rw [hS]
    exact Nat.mul_div_cancel (w / 4) (by norm_num)
  · rw [hS]
    exact Nat.mul_mod_left (w / 4) (2 ^ 34)
  · rw [hS, e3, e4]
    rw [e1] at hw
    omega
  · rw [hS, Nat.shiftLeft_eq]

/-- Instance of `rk_float_pattern` at the word `0xC0590001`, whose payload has
bit 31 set. -/
theorem rk_float_pattern_witness :
    ((3227058177 : Nat) < 2 ^ 32 ∧ Nat.testBit 3227058177 1 = false) ∧
      RK.number trivLib 3227058177 =
        ((0 : Int), trivLib.fdiv (3227058176 <<< 32) float100, true) ∧
      (toUint64 (toInt32 3227058177 >>> (2 : Nat)) <<< 34) % 2 ^ 64 =
        clearFlags 3227058177 <<< 32 :=
  ⟨⟨by decide, by decide⟩,
    (rk_float_pattern trivLib 3227058177 (by decide) (by decide)).1,
    (rk_float_pattern trivLib 3227058177 (by decide) (by decide)).2.1⟩

/-! ## Decimal rendering of integers -/

/-- The character of a decimal digit is a digit character of that value. -/
theorem digitChar_spec (k : Nat) (hk : k < 10) :
    (Nat.digitChar k).isDigit = true ∧ (Nat.digitChar k).toNat - 48 = k ∧
      Nat.digitChar k ≠ '-' := by
  have hcases : k = 0 ∨ k = 1 ∨ k = 2 ∨ k = 3 ∨ k = 4 ∨ k = 5 ∨ k = 6 ∨ k = 7 ∨
      k = 8 ∨ k = 9 := by omega
  rcases hcases with h | h | h | h | h | h | h | h | h | h <;> subst h <;> decide

/-- With enough fuel `Nat.toDigitsCore 10` puts in front of the accumulator a
non-empty run of digit characters that reads back as `n`. -/
theorem toDigitsCore_reads (fuel : Nat) :
    ∀ (n : Nat) (ds : List Char), n < fuel →
      ∃ run : List Char, Nat.toDigitsCore 10 fuel n ds = run ++ ds ∧ run ≠ [] ∧
        (∀ c ∈ run, c.isDigit = true ∧ c ≠ '-') ∧
        ∀ (acc : Nat) (rest : List Char),
          readDigits acc (run ++ rest) = readDigits (acc * 10 ^ run.length + n) rest := by
  induction fuel with
  | zero =>
    intro n ds h
    omega
  | succ fuel ih =>
    intro n ds hn
    have hd := digitChar_spec (n % 10) (Nat.mod_lt n (by decide))
    rw [Nat.toDigitsCore]
    by_cases hq : n / 10 = 0
    · simp only [hq, if_true]
      refine ⟨[Nat.digitChar (n % 10)], rfl, by simp, ?_, ?_⟩
      · intro c hc
        rw [List.mem_singleton] at hc
        rw [hc]
        exact ⟨hd.1, hd.2.2⟩
      · intro acc rest
        have hlt : n % 10 = n := by omega
        show readDigits acc (Nat.digitChar (n % 10) :: rest) = _
        rw [readDigits, if_pos hd.1, hd.2.1, List.length_singleton, pow_one, hlt]
    · simp only [hq, if_false]
      obtain ⟨run, hrun, _, hdig, hread⟩ :=
        ih (n / 10) (Nat.digitChar (n % 10) :: ds) (by omega)
      refine ⟨run ++ [Nat.digitChar (n % 10)], ?_, by simp, ?_, ?_⟩
      · rw [hrun, List.append_assoc]
        rfl
      · intro c hc
        rw [List.mem_append, List.mem_singleton] at hc
        rcases hc with hc | hc
        · exact hdig c hc
        · rw [hc]
          exact ⟨hd.1, hd.2.2⟩
      · intro acc rest
        rw [List.append_assoc, hread]
        show readDigits _ (Nat.digitChar (n % 10) :: rest) = _
        rw [readDigits, if_pos hd.1, hd.2.1, List.length_append, List.length_singleton,
          pow_succ]
        congr 1
        rw [← Nat.mul_assoc]
        generalize acc * 10 ^ run.length = a
        omega

/-- The decimal digits of a natural number read back as that number. -/
theorem toDigits_reads (n : Nat) :
    Nat.toDigits 10 n ≠ [] ∧ (∀ c ∈ Nat.toDigits 10 n, c.isDigit = true ∧ c ≠ '-') ∧
      readDigits 0 (Nat.toDigits 10 n) = some n := by
  obtain ⟨run, hrun, hne, hdig, hread⟩ := toDigitsCore_reads (n + 1) n [] (by omega)
  unfold Nat.toDigits
  rw [hrun, List.append_nil]
  refine ⟨hne, hdig, ?_⟩
  have h := hread 0 []
  rw [List.append_nil] at h
  rw [h]
  simp [readDigits]

/-- `FormatInt10` renders a text that reads back as the integer, made of digits
and at most a leading minus sign. -/
theorem formatInt10_reads (i : Int) :
    parseDecimal (FormatInt10 i) = some i ∧
      ∀ c ∈ (FormatInt10 i).data, c.isDigit = true ∨ c = '-' := by
  cases i with
  | ofNat n =>
    obtain ⟨hne, hdig, hread⟩ := toDigits_reads n
    unfold FormatInt10 parseDecimal
    simp only []
    constructor
    · cases hL : Nat.toDigits 10 n with
      | nil => exact absurd hL hne
      | cons c cs =>
        have hc := (hdig c (by rw [hL]; exact List.mem_cons_self c cs)).2
        rw [hL] at hread
        simp only [hc, if_false, hread, Option.map_some']
        rfl
    · intro c hc
      exact Or.inl (hdig c hc).1
  | negSucc n =>
    obtain ⟨hne, hdig, hread⟩ := toDigits_reads (n + 1)
    unfold FormatInt10 parseDecimal
    simp only []
    constructor
    · have hemp : (Nat.toDigits 10 (n + 1)).isEmpty = false := by
        cases hL : Nat.toDigits 10 (n + 1) with
        | nil => exact absurd hL hne
        | cons c cs => rfl
      simp only [if_true, hemp, Bool.false_eq_true, if_false, hread, Option.map_some']
      rfl
    · intro c hc
      rw [List.mem_cons] at hc
      rcases hc with hc | hc
      · exact Or.inr hc
      · exact Or.inl (hdig c hc).1

/-- The signed payload of a 32-bit word fits 30 bits. -/
theorem payload_range (w : Nat) (hw : w < 2 ^ 32) :
    -2 ^ 29 ≤ payload w ∧ payload w ≤ 2 ^ 29 - 1 := by
  unfold payload
  have hb := testBit31_iff w hw
  have e1 : (2 : Nat) ^ 32 = 4294967296 := by norm_num
  have e2 : (2 : Nat) ^ 31 = 2147483648 := by norm_num
  have e3 : (2 : Int) ^ 30 = 1073741824 := by norm_num
  have e4 : (2 : Int) ^ 29 = 536870912 := by norm_num
  rw [e1] at hw
  rw [e2] at hb
  rw [e3, e4]
  by_cases h31 : w.testBit 31 = true
  · have hge := hb.mp h31
    rw [if_pos h31]
    omega
  · have hlt : w < 2147483648 := by
      by_contra hc
      exact h31 (hb.mpr (by omega))
    rw [if_neg h31]
    omega

/-- C18: for every 32-bit word that decodes as an integer, `RK.String` is the
base-10 rendering of the decoded payload, made of digits with at most a leading
minus sign (no separator, no decimal point); reading the text back as a
decimal integer returns the decoded payload, which lies in
`[-2^29, 2^29 - 1]`. -/
theorem rk_string_integer (lib : GoLib) (w : RK) (hw : w < 2 ^ 32)
    (hInt : Nat.testBit w 1 = true) (hMul : Nat.testBit w 0 = false) :
    (RK.number lib w).1 = payload w ∧
      RK.String lib w = FormatInt10 (payload w) ∧
      parseDecimal (RK.String lib w) = some (payload w) ∧
      (∀ c ∈ (RK.String lib w).data, c.isDigit = true ∨ c = '-') ∧
      -2 ^ 29 ≤ payload w ∧ payload w ≤ 2 ^ 29 - 1 := by
  have hn := number_of_int_flags lib w hw hInt hMul
  have hS : RK.String lib w = FormatInt10 (payload w) := by
    unfold RK.String
    rw [hn]
    rfl
  have hr := formatInt10_reads (payload w)
  have hp := payload_range w hw
  refine ⟨by rw [hn], hS, ?_, ?_, hp.1, hp.2⟩
  · rw [hS]
    exact hr.1
  · rw [hS]
    exact hr.2

/-- Instance of `rk_string_integer` at the word `0x80000002`, the least
payload `-2^29`. -/
theorem rk_string_integer_witness :
    ((2147483650 : Nat) < 2 ^ 32 ∧ Nat.testBit 2147483650 1 = true ∧
        Nat.testBit 2147483650 0 = false) ∧
      payload 2147483650 = -536870912 ∧
      parseDecimal (RK.String trivLib 2147483650) = some (payload 2147483650) :=
  ⟨⟨by decide, by decide, by decide⟩, by decide,
    (rk_string_integer trivLib 2147483650 (by decide) (by decide) (by decide)).2.2.1⟩

/-! ## Single-column variants: theorems -/

/-- `NumberCol.String` returns one text when the style index is in range and the
format is renderable: the custom-format table holds a pattern at the format
code, or the code is one of `0..4`. -/
theorem numbercol_string_renderable (lib : GoLib) (c : NumberCol) (wb : WorkBook)
    (st : StXfData) (hst : wb.Xfs[c.Index]? = some st)
    (hren : wb.Formats st.formatNo ≠ none ∨ st.formatNo ≤ 4) :
    ∃ s : String, NumberCol.String lib c wb = Except.ok [s] := by
  cases hF : wb.Formats st.formatNo with
  | none =>
    have h4 : st.formatNo ≤ 4 := by
      rcases hren with h | h
      · exact absurd hF h
      · exact h
    rw [numbercol_string_no_pattern lib c wb st hst hF]
    split_ifs
    all_goals first
      | exact ⟨_, rfl⟩
      | omega
  | some fmt =>
    rw [numbercol_string_pattern lib c wb st fmt hst hF]
    split_ifs
    all_goals exact ⟨_, rfl⟩

/-- C19: every single-column variant returns exactly one text value from
`String(wb)`: `Col`, `BlankCol`, `RkCol`, `labelCol`, `FormulaStringCol` and
`FormulaCol` on every workbook, `NumberCol` when its style index is in range
and the format is renderable, `LabelsstCol` when its index is in range; for
every variant that does not override `LastCol` the accessor `LastCol()` equals
`FirstCol()`; `labelCol` and `FormulaStringCol` return their carried text;
`FormulaCol` and the base `Col` return the fixed texts `"FormulaCol"` and
`"default"`, whatever their payload and the workbook. -/
theorem single_column_variants (lib : GoLib) (wb : WorkBook) (col : Col) (b : BlankCol)
    (n : NumberCol) (r : RkCol) (l : LabelsstCol) (lab : labelCol)
    (fs : FormulaStringCol) (f : FormulaCol) :
    ((Col.String col wb).length = 1 ∧ (BlankCol.String b wb).length = 1 ∧
        (∀ st : StXfData, wb.Xfs[n.Index]? = some st →
          (wb.Formats st.formatNo ≠ none ∨ st.formatNo ≤ 4) →
          ∃ s : String, NumberCol.String lib n wb = Except.ok [s]) ∧
        (RkCol.String lib r wb).length = 1 ∧
        (l.Sst < wb.sst.length →
          ∃ s : String, LabelsstCol.String l wb = Except.ok [s]) ∧
        (labelCol.String lab wb).length = 1 ∧
        (FormulaStringCol.String fs wb).length = 1 ∧
        (FormulaCol.String f wb).length = 1) ∧
      (Col.LastCol col = Col.FirstCol col ∧ BlankCol.LastCol b = BlankCol.FirstCol b ∧
        NumberCol.LastCol n = NumberCol.FirstCol n ∧ RkCol.LastCol r = RkCol.FirstCol r ∧
        LabelsstCol.LastCol l = LabelsstCol.FirstCol l ∧
        labelCol.LastCol lab = labelCol.FirstCol lab ∧
        FormulaStringCol.LastCol fs = FormulaStringCol.FirstCol fs ∧
        Col.LastCol f.Header.toCol = Col.FirstCol f.Header.toCol) ∧
      (labelCol.String lab wb = [lab.Str] ∧
        FormulaStringCol.String fs wb = [fs.RenderedValue]) ∧
      (∀ (f2 : FormulaCol) (col2 : Col) (wb2 : WorkBook),
        FormulaCol.String f2 wb2 = ["FormulaCol"] ∧ Col.String col2 wb2 = ["default"]) := by
  refine ⟨⟨rfl, rfl, ?_, rfl, ?_, rfl, rfl, rfl⟩,
    ⟨rfl, rfl, rfl, rfl, rfl, rfl, rfl, rfl⟩, ⟨rfl, rfl⟩, ?_⟩
  · intro st hst hren
    exact numbercol_string_renderable lib n wb st hst hren
  · intro hl
    refine ⟨wb.sst.get ⟨l.Sst, hl⟩, ?_⟩
    unfold LabelsstCol.String
    rw [List.getElem?_eq_getElem hl]
    rfl
  · intro f2 col2 wb2
    exact ⟨rfl, rfl⟩

/-- Instance of `single_column_variants` on a workbook with one style of format
code 2 and one shared string: the number cell and the shared-string cell
render one text each. -/
theorem single_column_variants_witness :
    (({ oneStyleBook 2 none with sst := ["hello"] } : WorkBook).Xfs[0]? =
          some { formatNo := 2 } ∧
        (({ oneStyleBook 2 none with sst := ["hello"] } : WorkBook).Formats 2 ≠ none ∨
          2 ≤ 4) ∧
        0 < ({ oneStyleBook 2 none with sst := ["hello"] } : WorkBook).sst.length) ∧
      (∃ s : String, NumberCol.String trivLib
        { RowB := 0, FirstColB := 0, Index := 0, Float := 0 }
        { oneStyleBook 2 none with sst := ["hello"] } = Except.ok [s]) ∧
      (∃ s : String, LabelsstCol.String { RowB := 0, FirstColB := 1, Xf := 0, Sst := 0 }
        { oneStyleBook 2 none with sst := ["hello"] } = Except.ok [s]) :=
  ⟨⟨rfl, Or.inr (by decide), by decide⟩,
    (single_column_variants trivLib { oneStyleBook 2 none with sst := ["hello"] }
      { RowB := 0, FirstColB := 0 } { RowB := 0, FirstColB := 0, Xf := 0 }
      { RowB := 0, FirstColB := 0, Index := 0, Float := 0 }
      { RowB := 0, FirstColB := 0, Xfrk := { Index := 0, Rk := 170 } }
      { RowB := 0, FirstColB := 1, Xf := 0, Sst := 0 }
      { RowB := 0, FirstColB := 0, Xf := 0, Str := "a" }
      { RowB := 0, FirstColB := 0, RenderedValue := "b" }
      { Header := { RowB := 0, FirstColB := 0, IndexXf := 0, Result := [], Flags := 0 },
        Bts := [] }).1.2.2.1 { formatNo := 2 } rfl (Or.inr (by decide)),
    (single_column_variants trivLib { oneStyleBook 2 none with sst := ["hello"] }
      { RowB := 0, FirstColB := 0 } { RowB := 0, FirstColB := 0, Xf := 0 }
      { RowB := 0, FirstColB := 0, Index := 0, Float := 0 }
      { RowB := 0, FirstColB := 0, Xfrk := { Index := 0, Rk := 170 } }
      { RowB := 0, FirstColB := 1, Xf := 0, Sst := 0 }
      { RowB := 0, FirstColB := 0, Xf := 0, Str := "a" }
      { RowB := 0, FirstColB := 0, RenderedValue := "b" }
      { Header := { RowB := 0, FirstColB := 0, IndexXf := 0, Result := [], Flags := 0 },
        Bts := [] }).1.2.2.2.2.1 (by decide)⟩

/-! ## Numeric markers in `NumberCol.String` -/

/-- A character-wise map keeps an occurrence of a substring. -/
theorem containsAt_map (g : Char → Char) (sub s : List Char)
    (h : containsAt sub s = true) : containsAt (sub.map g) (s.map g) = true := by
  rw [containsAt_iff] at h ⊢
  obtain ⟨a, b, hab⟩ := h
  exact ⟨a.map g, b.map g, by rw [← hab, List.map_append, List.map_append]⟩

/-- C20: in `NumberCol.String` the numeric-marker check comes before the
format-code dispatch. For a `NumberCol` whose style index is in range, if the
custom-format table holds a pattern at the style's format code and that
pattern contains `"#"` or `".00"`, the result is the single minimal-digit
rendering of the float, for every format code and every epoch mode.
`strings.ToLower` is taken to map character by character and to leave `#`, `.`
and `0` unchanged. -/
theorem numbercol_numeric_marker (lib : GoLib) (g : Char → Char) (c : NumberCol)
    (wb : WorkBook) (st : StXfData) (fmt : Format)
    (hlower : ∀ s : String, (lib.ToLower s).data = s.data.map g)
    (hsharp : g '#' = '#') (hdot : g '.' = '.') (hzero : g '0' = '0')
    (hst : wb.Xfs[c.Index]? = some st)
    (hfmt : wb.Formats st.formatNo = some fmt)
    (hmark : Contains fmt.str "#" = true ∨ Contains fmt.str ".00" = true) :
    NumberCol.String lib c wb = Except.ok [lib.FormatFloat c.Float 'f' (-1) 64] ∧
      ∀ d : Nat, NumberCol.String lib c { wb with dateMode := d } =
        Except.ok [lib.FormatFloat c.Float 'f' (-1) 64] := by
  have hcond : (Contains (lib.ToLower fmt.str) "#" ||
      Contains (lib.ToLower fmt.str) ".00") = true := by
    rw [Bool.or_eq_true]
    rcases hmark with h | h
    · left
      unfold Contains at h ⊢
      have hm := containsAt_map g _ _ h
      rw [hlower]
      have e : List.map g "#".data = "#".data := by
        show [g '#'] = ['#']
        rw [hsharp]
      rw [e] at hm
      exact hm
    · right
      unfold Contains at h ⊢
      have hm := containsAt_map g _ _ h
      rw [hlower]
      have e : List.map g ".00".data = ".00".data := by
        show [g '.', g '0', g '0'] = ['.', '0', '0']
        rw [hdot, hzero]
      rw [e] at hm
      exact hm
  constructor
  · rw [numbercol_string_pattern lib c wb st fmt hst hfmt, if_pos hcond]
  · intro d
    rw [numbercol_string_pattern lib c { wb with dateMode := d } st fmt hst hfmt,
      if_pos hcond]

/-- Instance of `numbercol_numeric_marker`: format code 2 with the pattern
`"0.00"` in the custom-format table. -/
theorem numbercol_numeric_marker_witness :
    ((∀ s : String, (trivLib.ToLower s).data = s.data.map Char.toLower) ∧
        Char.toLower '#' = '#' ∧ Char.toLower '.' = '.' ∧ Char.toLower '0' = '0' ∧
        (oneStyleBook 2 (some "0.00")).Xfs[0]? = some { formatNo := 2 } ∧
        (oneStyleBook 2 (some "0.00")).Formats 2 = some { str := "0.00" } ∧
        (Contains "0.00" "#" = true ∨ Contains "0.00" ".00" = true)) ∧
      NumberCol.String trivLib
          { RowB := 0, FirstColB := 0, Index := 0, Float := float3_14159 }
          (oneStyleBook 2 (some "0.00")) =
        Except.ok [trivLib.FormatFloat float3_14159 'f' (-1) 64] :=
  ⟨⟨fun s => congrArg String.data (trivLib_toLower s), by decide, by decide, by decide,
      rfl, rfl, Or.inr (by decide)⟩,
    (numbercol_numeric_marker trivLib Char.toLower
      { RowB := 0, FirstColB := 0, Index := 0, Float := float3_14159 }
      (oneStyleBook 2 (some "0.00")) { formatNo := 2 } { str := "0.00" }
      (fun s => congrArg String.data (trivLib_toLower s)) (by decide) (by decide)
      (by decide) rfl rfl (Or.inr (by decide))).1⟩

end Xls
